import Mathlib

/-!
Verification development for the federation transport server base module
(`synapse/federation/transport/server/_base.py`).

The Python source is shallowly embedded: header values are byte lists
(`List Nat`), decoded strings are character lists (`Str`), Python
dictionaries are ordered association lists with Python's insertion /
overwrite semantics, exceptions become `Except` values, and the external
collaborators (Keyring, retry-timings store, notifier, rate limiter,
tracer) are parameters or event records.
-/

set_option autoImplicit false

/-- Decoded strings are modelled as lists of characters so that the
header-splitting code can be reasoned about by structural induction. -/
abbrev Str := List Char

/-- ASCII byte representation of a Lean string literal, used to build
concrete header values for evaluation. -/
def asciiBytes (s : String) : List Nat :=
  s.data.map Char.toNat

/-- Model of `re.split(" +", s)`: split on maximal runs of space
characters.  A leading or trailing run produces an empty first or last
element, runs in the middle produce no empty elements. -/
def splitSp : Str → List Str
  | [] => [[]]
  | c :: rest =>
    if c = ' ' then
      if rest.head? = some ' ' then splitSp rest
      else [] :: splitSp rest
    else
      match splitSp rest with
      | [] => [[c]]
      | h :: t => (c :: h) :: t

/-- Model of Python's `s.split(sep)` for a one-character separator:
every occurrence of the separator produces a boundary, so consecutive
separators yield empty elements. -/
def splitOnChar (sep : Char) : Str → List Str
  | [] => [[]]
  | c :: rest =>
    if c = sep then
      [] :: splitOnChar sep rest
    else
      match splitOnChar sep rest with
      | [] => [[c]]
      | h :: t => (c :: h) :: t

/-- Model of `param.split("=", maxsplit=1)` followed by the `k, v`
unpacking in the dict comprehension: `none` when the parameter contains
no `=` (Python raises `ValueError` on unpacking). -/
def splitEq1 : Str → Option (Str × Str)
  | [] => none
  | c :: rest =>
    if c = '=' then
      some ([], rest)
    else
      (splitEq1 rest).map (fun p => (c :: p.1, p.2))

/-- Option-valued map over a list, failing if any element fails; models
the list comprehension `[param.split("=", 1) for param in params]`
whose unpacking raises at the first bad element. -/
def mapOpt {α β : Type} (f : α → Option β) : List α → Option (List β)
  | [] => some []
  | a :: l =>
    match f a, mapOpt f l with
    | some b, some bs => some (b :: bs)
    | _, _ => none

/-- Lookup in an ordered association list where a later binding for the
same key wins, matching the Python dict comprehension
`{k.lower(): v for k, v in ...}` in which later pairs overwrite
earlier ones. -/
def lookupLast (k : Str) : List (Str × Str) → Option Str
  | [] => none
  | (k', v) :: rest =>
    match lookupLast k rest with
    | some r => some r
    | none => if k' = k then some v else none

/-- Model of `strip_quotes`'s inner `re.sub("\\\\(.)", ...)`: each
backslash followed by a non-newline character is replaced by that
character (`.` does not match a newline, and a trailing lone backslash
is left alone). -/
def unescape : Str → Str
  | [] => []
  | c :: rest =>
    if c = '\\' then
      match rest with
      | [] => ['\\']
      | c2 :: rest2 =>
        if c2 = '\n' then '\\' :: '\n' :: unescape rest2
        else c2 :: unescape rest2
    else
      c :: unescape rest

/-- Model of `strip_quotes` from `_parse_auth_header`: if the value
starts with a double quote, drop the first and last characters and
unescape; otherwise return the value unchanged. -/
def strip_quotes (v : Str) : Str :=
  match v with
  | [] => []
  | c :: rest => if c = '"' then unescape rest.dropLast else c :: rest

/-- Escape a raw value for inclusion in a double-quoted parameter:
backslashes and double quotes are preceded by a backslash.  This is the
sender-side encoding whose round trip through `strip_quotes` claim C7
is about. -/
def escapeValue : Str → Str
  | [] => []
  | c :: rest =>
    if c = '\\' ∨ c = '"' then '\\' :: c :: escapeValue rest
    else c :: escapeValue rest

/-- Wrap an escaped value in double quotes. -/
def quoteValue (v : Str) : Str :=
  '"' :: (escapeValue v ++ ['"'])

/-- ASCII lowercasing of a key, modelling `k.lower()` for the ASCII
parameter keys the header format uses. -/
def lowerKey (k : Str) : Str :=
  k.map Char.toLower

/-- Characters allowed in the host part of a server name. -/
def isHostChar (c : Char) : Bool :=
  c.isAlphanum || c = '.' || c = '-'

/-- Modelled from the spec: `parse_and_validate_server_name`
(`synapse.util.stringutils`) is imported by the source module but its
definition is not part of the sources under verification.  The spec
describes a `ServerName` as "a validated `host[:port]`-shaped
identifier"; this predicate accepts a non-empty host of alphanumeric,
dot and dash characters, optionally followed by a colon and a
non-empty numeric port. -/
def validServerName (s : Str) : Bool :=
  match splitOnChar ':' s with
  | [host] => !host.isEmpty && host.all isHostChar
  | [host, port] => !host.isEmpty && host.all isHostChar && !port.isEmpty && port.all Char.isDigit
  | _ => false

/-- Tokenisation phase of `_parse_auth_header`:
`re.split(" +", header_str)[1].split(",")` followed by
`param.split("=", maxsplit=1)` on each parameter.  `none` models the
`IndexError` / `ValueError` cases swallowed by the `except` clause. -/
def paramPairs (s : Str) : Option (List (Str × Str)) :=
  match (splitSp s).get? 1 with
  | none => none
  | some afterScheme => mapOpt splitEq1 (splitOnChar ',' afterScheme)

/-- The body of `_parse_auth_header`'s `try` block after decoding:
build the lowercased parameter dict, require `origin`, `key` and `sig`,
validate the origin as a server name, and strip quotes from each value;
`destination` is optional and, notably, never validated. -/
def parseXMatrixParams (s : Str) : Option (Str × Str × Str × Option Str) :=
  match paramPairs s with
  | none => none
  | some pairs =>
    let d := pairs.map (fun p => (lowerKey p.1, p.2))
    match lookupLast ("origin".data) d with
    | none => none
    | some ov =>
      let origin := strip_quotes ov
      if validServerName origin then
        match lookupLast ("key".data) d with
        | none => none
        | some kv =>
          match lookupLast ("sig".data) d with
          | none => none
          | some sv =>
            some (origin, strip_quotes kv, strip_quotes sv,
              (lookupLast ("destination".data) d).map strip_quotes)
      else
        none

/-- Continuation byte test for strict UTF-8 decoding. -/
def isCont (b : Nat) : Bool :=
  0x80 ≤ b && b ≤ 0xBF

/-- Allowed second byte of a three-byte sequence (strict decoding
rejects overlong encodings and surrogates, as Python's
`bytes.decode("utf-8")` does). -/
def cont2ok (b b2 : Nat) : Bool :=
  if b = 0xE0 then 0xA0 ≤ b2 && b2 ≤ 0xBF
  else if b = 0xED then 0x80 ≤ b2 && b2 ≤ 0x9F
  else isCont b2

/-- Allowed second byte of a four-byte sequence (strict decoding
rejects overlong encodings and code points above `0x10FFFF`). -/
def cont3ok (b b2 : Nat) : Bool :=
  if b = 0xF0 then 0x90 ≤ b2 && b2 ≤ 0xBF
  else if b = 0xF4 then 0x80 ≤ b2 && b2 ≤ 0x8F
  else isCont b2

/-- Strict UTF-8 decoding to code points, modelling
`header_bytes.decode("utf-8")`; `none` models `UnicodeDecodeError`. -/
def utf8DecodeCps : List Nat → Option (List Nat)
  | [] => some []
  | b :: rest =>
    if b < 0x80 then
      (utf8DecodeCps rest).map (b :: ·)
    else if 0xC2 ≤ b && b ≤ 0xDF then
      match rest with
      | b2 :: rest2 =>
        if isCont b2 then
          (utf8DecodeCps rest2).map (((b - 0xC0) * 64 + (b2 - 0x80)) :: ·)
        else none
      | [] => none
    else if 0xE0 ≤ b && b ≤ 0xEF then
      match rest with
      | b2 :: b3 :: rest3 =>
        if cont2ok b b2 && isCont b3 then
          (utf8DecodeCps rest3).map
            (((b - 0xE0) * 4096 + (b2 - 0x80) * 64 + (b3 - 0x80)) :: ·)
        else none
      | _ => none
    else if 0xF0 ≤ b && b ≤ 0xF4 then
      match rest with
      | b2 :: b3 :: b4 :: rest4 =>
        if cont3ok b b2 && isCont b3 && isCont b4 then
          (utf8DecodeCps rest4).map
            (((b - 0xF0) * 262144 + (b2 - 0x80) * 4096 + (b3 - 0x80) * 64 + (b4 - 0x80)) :: ·)
        else none
      | _ => none
    else
      none

/-- Decode bytes to characters; the strict decoder only produces valid
Unicode scalar values, so `Char.ofNat` is injective on its output. -/
def utf8Decode (bs : List Nat) : Option Str :=
  (utf8DecodeCps bs).map (·.map Char.ofNat)

/-- Exceptions raised by `authenticate_request` and its helpers,
mirrored from the Python class hierarchy: `NoAuthenticationError`,
plain `AuthenticationError` (carrying HTTP status and message) and
`FederationDeniedError` (carrying the offending origin, possibly
`None`).  `keyringRejected` stands for the error the external
`Keyring.verify_json_for_server` raises on a bad signature. -/
inductive AuthException where
  | noAuthentication (status : Nat) (msg : String)
  | authentication (status : Nat) (msg : String)
  | federationDenied (origin : Option Str)
  | keyringRejected
  deriving DecidableEq

/-- The `AuthenticationError` raised by `_parse_auth_header`'s
`except` clause: HTTP 400 with a fixed message. -/
def malformedHeaderError : AuthException :=
  .authentication 400 "Malformed Authorization header"

/-- Model of `_parse_auth_header`: decode the bytes and run the
parameter parser; any failure inside the `try` block is converted by
the `except Exception` clause into the single malformed-header
`AuthenticationError` with status 400. -/
def parse_auth_header (header_bytes : List Nat) : Except AuthException (Str × Str × Str × Option Str) :=
  match (utf8Decode header_bytes).bind parseXMatrixParams with
  | some r => .ok r
  | none => .error malformedHeaderError

/-- Per-origin backoff record returned by
`store.get_destination_retry_timings`; only the fields the module reads
are modelled. -/
structure RetryTimings where
  retry_last_ts : Nat
  retry_interval : Nat
  deriving DecidableEq

/-- Authenticator configuration: the local server name and the optional
static federation domain whitelist
(`hs.config.federation.federation_domain_whitelist`). -/
structure AuthConfig where
  server_name : Str
  federation_domain_whitelist : Option (List Str)
  deriving DecidableEq

/-- The inbound request fields the module reads: HTTP method, URI, the
raw `Authorization` header values (byte lists; an absent header is the
empty list) and the disconnect flag `request._disconnected`. -/
structure Request where
  method : String
  uri : String
  authHeaders : List (List Nat)
  disconnected : Bool

/-- The canonical signing payload `json_request` rebuilt by
`authenticate_request`; `signatures` is a Python dict of dicts, kept
here as insertion-ordered association lists.  The JSON body `content`
is carried opaquely (JSON parsing is an external collaborator). -/
structure JsonRequest where
  method : String
  uri : String
  destination : Str
  origin : Option Str
  signatures : List (Str × List (Str × Str))
  content : Option String
  deriving DecidableEq

/-- Insert-or-overwrite into an insertion-ordered association list,
matching Python dict assignment `d[k] = v`. -/
def dictSet : List (Str × Str) → Str → Str → List (Str × Str)
  | [], k, v => [(k, v)]
  | (k', v') :: rest, k, v =>
    if k' = k then (k', v) :: rest else (k', v') :: dictSet rest k v

/-- Model of `json_request["signatures"].setdefault(origin, {})[key] = sig`. -/
def sigInsert : List (Str × List (Str × Str)) → Str → Str → Str → List (Str × List (Str × Str))
  | [], o, k, s => [(o, [(k, s)])]
  | (o', m) :: rest, o, k, s =>
    if o' = o then (o', dictSet m k s) :: rest
    else (o', m) :: sigInsert rest o k s

/-- The byte prefix tested by `auth.startswith(b"X-Matrix")`. -/
def xMatrixBytes : List Nat :=
  asciiBytes "X-Matrix"

/-- The `for auth in auth_headers` loop of `authenticate_request`:
headers starting with the scheme token are parsed (a parse failure
raises), the last-seen origin is tracked, signatures accumulate, and an
entry whose declared destination differs from the local server name
raises the destination-mismatch `AuthenticationError` (HTTP 401). -/
def processHeaders (server_name : Str) :
    List (List Nat) → Option Str → List (Str × List (Str × Str)) →
    Except AuthException (Option Str × List (Str × List (Str × Str)))
  | [], origin, sigs => .ok (origin, sigs)
  | auth :: rest, origin, sigs =>
    if xMatrixBytes.isPrefixOf auth then
      match parse_auth_header auth with
      | .error e => .error e
      | .ok (o, k, s, dst) =>
        let sigs' := sigInsert sigs o k s
        match dst with
        | some d =>
          if d ≠ server_name then
            .error (.authentication 401 "Destination mismatch in auth header")
          else
            processHeaders server_name rest (some o) sigs'
        | none => processHeaders server_name rest (some o) sigs'
    else
      processHeaders server_name rest origin sigs

/-- Membership test for `origin not in self.federation_domain_whitelist`
with `origin : Optional[str]`: `None` is never an element of a list of
server names, so an absent origin always counts as not whitelisted. -/
def originInWhitelist (origin : Option Str) (wl : List Str) : Bool :=
  match origin with
  | some o => wl.contains o
  | none => false

deriving instance DecidableEq for Except

/-- Instance registered by hand: elaboration does not find the product
instance for this composite type on its own. -/
instance : DecidableEq (Option Str × List (Str × List (Str × Str))) :=
  instDecidableEqProd

/-- Result of one call to `authenticate_request` together with the two
observable interactions the claims talk about: whether the external
Keyring was invoked, and whether a `reset_retry_timings` background
task was scheduled via `run_in_background`. -/
structure AuthTrace where
  result : Except AuthException Str
  keyringCalled : Bool
  resetScheduled : Bool
  deriving DecidableEq

/-- Model of `Authenticator.authenticate_request`.  The external
Keyring is a boolean verdict on `(origin, json_request)`; the
retry-timings store is a read-only map here (the write happens in the
background task).  Mirrors the source order: missing headers, the
header loop, the whitelist check, the no-origin check, Keyring
verification, then the retry-timings read and background scheduling. -/
def authenticate_request (cfg : AuthConfig) (keyring : Str → JsonRequest → Bool)
    (store : Str → Option RetryTimings) (req : Request) (content : Option String) :
    AuthTrace :=
  if req.authHeaders.isEmpty then
    ⟨.error (.noAuthentication 401 "Missing Authorization headers"), false, false⟩
  else
    match processHeaders cfg.server_name req.authHeaders none [] with
    | .error e => ⟨.error e, false, false⟩
    | .ok (origin, sigs) =>
      match cfg.federation_domain_whitelist with
      | some wl =>
        if !originInWhitelist origin wl then
          ⟨.error (.federationDenied origin), false, false⟩
        else
          authAfterWhitelist cfg keyring store req content origin sigs
      | none => authAfterWhitelist cfg keyring store req content origin sigs
where
  /-- Continuation of `authenticate_request` after the whitelist check:
  the `origin is None or not json_request["signatures"]` guard, the
  Keyring call, and the retry-timings read. -/
  authAfterWhitelist (cfg : AuthConfig) (keyring : Str → JsonRequest → Bool)
      (store : Str → Option RetryTimings) (req : Request) (content : Option String)
      (origin : Option Str) (sigs : List (Str × List (Str × Str))) : AuthTrace :=
    match origin with
    | none => ⟨.error (.noAuthentication 401 "Missing Authorization headers"), false, false⟩
    | some o =>
      if sigs.isEmpty then
        ⟨.error (.noAuthentication 401 "Missing Authorization headers"), false, false⟩
      else
        let jr : JsonRequest :=
          ⟨req.method, req.uri, cfg.server_name, some o, sigs, content⟩
        if keyring o jr then
          let sched :=
            match store o with
            | some rt => rt.retry_last_ts ≠ 0
            | none => false
          ⟨.ok o, true, sched⟩
        else
          ⟨.error .keyringRejected, true, false⟩

/-- The step of `reset_retry_timings` at which an injected failure
raises, used to show the `except Exception` clause swallows a failure
of any step. -/
inductive ResetStep where
  | storeStep
  | notifyStep
  | replicationStep
  deriving DecidableEq

/-- Observable side effects of one run of `reset_retry_timings`: the
arguments of `store.set_destination_retry_timings` calls (destination,
`failure_ts`, `retry_last_ts`, `retry_interval`), the origins passed to
`notifier.notify_remote_server_up`, the origins sent over the
replication channel, and whether `logger.exception` ran. -/
structure ResetEffects where
  storeWrites : List (Str × Option Nat × Nat × Nat)
  notifications : List Str
  replicationSends : List Str
  loggedError : Bool
  deriving DecidableEq

/-- The `try` body of `reset_retry_timings`: write the zero retry
state, notify local listeners, and (only on a worker) send the
remote-server-up replication command.  The second component is `some`
when the injected failure fired, carrying the effects performed before
the raise. -/
def resetAttempt (isWorker : Bool) (failAt : Option ResetStep) (origin : Str) :
    ResetEffects × Bool :=
  if failAt = some .storeStep then
    (⟨[], [], [], false⟩, true)
  else
    let e1 : ResetEffects := ⟨[(origin, none, 0, 0)], [], [], false⟩
    if failAt = some .notifyStep then
      (e1, true)
    else
      let e2 : ResetEffects := { e1 with notifications := [origin] }
      if isWorker then
        if failAt = some .replicationStep then
          (e2, true)
        else
          ({ e2 with replicationSends := [origin] }, false)
      else
        (e2, false)

/-- Model of `Authenticator.reset_retry_timings`: run the body and, if
any step raised, log and swallow the exception.  The function is total:
no exception ever propagates out of the task. -/
def reset_retry_timings (isWorker : Bool) (failAt : Option ResetStep) (origin : Str) :
    ResetEffects :=
  match resetAttempt isWorker failAt origin with
  | (eff, false) => eff
  | (eff, true) => { eff with loggedError := true }

/-- A request together with its fire-and-forget background repair task:
the first component is the request's own outcome, the second the
effects of the scheduled `reset_retry_timings` run (empty when none was
scheduled).  The failure injection only reaches the background task, as
in the source, where `run_in_background` detaches it. -/
def requestWithBackground (cfg : AuthConfig) (keyring : Str → JsonRequest → Bool)
    (store : Str → Option RetryTimings) (req : Request) (content : Option String)
    (isWorker : Bool) (failAt : Option ResetStep) :
    Except AuthException Str × ResetEffects :=
  let t := authenticate_request cfg keyring store req content
  match t.result with
  | .ok o =>
    (t.result, if t.resetScheduled then reset_retry_timings isWorker failAt o else ⟨[], [], [], false⟩)
  | .error _ => (t.result, ⟨[], [], [], false⟩)

/-- Events recorded by the dispatch pipeline model: entering/exiting
the `authenticate_request` span, entering the remote-parent span (with
a flag recording whether it is a real span or the non-recording
placeholder), entering/exiting the local-processing span, acquiring and
releasing the rate-limiter admission slot, and invoking the method
handler. -/
inductive Ev where
  | authSpanEnter
  | authSpanExit
  | enterRemote (real : Bool)
  | enterLocal
  | exitLocal
  | exitRemote
  | enterRL
  | exitRL
  | callHandler
  deriving DecidableEq

/-- Errors propagating out of the wrapped pipeline: an authentication
error from `authenticate_request`, or an exception raised by the
method handler (not caught by the pipeline). -/
inductive PipeErr where
  | auth (e : AuthException)
  | handler (msg : String)
  deriving DecidableEq

/-- Servlet class attributes read by `_wrap` and `register`. -/
structure ServletFlags where
  REQUIRE_AUTH : Bool
  RATELIMIT : Bool

/-- The part of `new_func` after authentication resolved to an
optional origin: decide the span topology, enter the two spans, run
the rate-limited (or direct) handler body, and exit the spans in
reverse order on every path — the `with` block exits also when the
body raises, which is why the exit events are appended to the trace
unconditionally. -/
def newFuncSpans (fl : ServletFlags)
    (whitelisted_homeserver : Str → Bool) (spanCtx : Option Unit)
    (req : Request) (handlerRes : Except String (Option (Nat × Nat)))
    (origin : Option Str) :
    Except PipeErr (Option (Nat × Nat)) × List Ev :=
  let origin_span_context : Option Unit :=
    match origin with
    | some o => if whitelisted_homeserver o then spanCtx else none
    | none => none
  let real := origin_span_context.isSome
  let body : Except PipeErr (Option (Nat × Nat)) × List Ev :=
    match origin with
    | some _ =>
      if fl.RATELIMIT then
        if req.disconnected then
          (.ok none, [.enterRL, .exitRL])
        else
          (handlerRes.mapError .handler, [.enterRL, .callHandler, .exitRL])
      else
        (handlerRes.mapError .handler, [.callHandler])
    | none => (handlerRes.mapError .handler, [.callHandler])
  (body.1, [.enterRemote real, .enterLocal] ++ body.2 ++ [.exitLocal, .exitRemote])

/-- Model of the wrapped servlet callback `new_func` produced by
`BaseFederationServlet._wrap`: authenticate inside its own span
(tolerating `NoAuthenticationError` when `REQUIRE_AUTH` is false,
re-raising everything else), then run the span/rate-limit/handler
pipeline.  The external collaborators are parameters: the tracing
whitelist, the extracted remote span context, and the handler's
outcome (`.error` modelling an exception it raises). -/
def new_func (fl : ServletFlags) (cfg : AuthConfig)
    (keyring : Str → JsonRequest → Bool) (store : Str → Option RetryTimings)
    (whitelisted_homeserver : Str → Bool) (spanCtx : Option Unit)
    (req : Request) (content : Option String)
    (handlerRes : Except String (Option (Nat × Nat))) :
    Except PipeErr (Option (Nat × Nat)) × List Ev :=
  let a := authenticate_request cfg keyring store req content
  let authEvents : List Ev := [.authSpanEnter, .authSpanExit]
  match a.result with
  | .error (.noAuthentication st m) =>
    if fl.REQUIRE_AUTH then
      (.error (.auth (.noAuthentication st m)), authEvents)
    else
      let r := newFuncSpans fl whitelisted_homeserver spanCtx req handlerRes none
      (r.1, authEvents ++ r.2)
  | .error e => (.error (.auth e), authEvents)
  | .ok o =>
    let r := newFuncSpans fl whitelisted_homeserver spanCtx req handlerRes (some o)
    (r.1, authEvents ++ r.2)

/-- Whether the pipeline proceeds past authentication to the span
section: authentication succeeded, or it failed with
`NoAuthenticationError` on an endpoint with `REQUIRE_AUTH = False`. -/
def authContinues (fl : ServletFlags) (cfg : AuthConfig)
    (keyring : Str → JsonRequest → Bool) (store : Str → Option RetryTimings)
    (req : Request) (content : Option String) : Bool :=
  match (authenticate_request cfg keyring store req content).result with
  | .ok _ => true
  | .error (.noAuthentication _ _) => !fl.REQUIRE_AUTH
  | .error _ => false

/-- The optional origin the pipeline hands to the span section and the
handler (meaningful when `authContinues` holds). -/
def originAfterAuth (cfg : AuthConfig)
    (keyring : Str → JsonRequest → Bool) (store : Str → Option RetryTimings)
    (req : Request) (content : Option String) : Option Str :=
  match (authenticate_request cfg keyring store req content).result with
  | .ok o => some o
  | .error _ => none

/-- A method handler as `register` sees it: only its cancellable flag
(the `is_method_cancellable` attribute) matters there. -/
structure MethodHandler where
  cancellable : Bool
  deriving DecidableEq

/-- Servlet class attributes read by `register`: the path regex, the
version prefix, the class name, and the optional `on_GET` / `on_PUT` /
`on_POST` handlers. -/
structure ServletClass where
  PATH : String
  urlPrefix : String
  clsName : String
  on_GET : Option MethodHandler
  on_PUT : Option MethodHandler
  on_POST : Option MethodHandler

/-- The `for method in ("GET", "PUT", "POST")` loop of `register`:
skip absent handlers, raise on a cancellable handler, otherwise bind
`(method, pattern, servlet_classname)`. -/
def registerLoop (pattern clsName : String) :
    List (String × Option MethodHandler) → Except String (List (String × String × String))
  | [] => .ok []
  | (_, none) :: rest => registerLoop pattern clsName rest
  | (m, some c) :: rest =>
    if c.cancellable then
      .error (clsName ++ ".on_" ++ m ++ " has been marked as cancellable, but federation servlets do not support cancellation yet.")
    else
      (registerLoop pattern clsName rest).map (fun l => (m, pattern, clsName) :: l)

/-- Model of `BaseFederationServlet.register`: compile the anchored
pattern once, then walk the three methods in order; a cancellable
handler raises before anything is bound (registration fails at startup,
`.error`), otherwise every implemented method is bound to the wrapped
pipeline under the anchored pattern (`.ok` with the bindings). -/
def registerServlet (s : ServletClass) : Except String (List (String × String × String)) :=
  let pattern := "^" ++ s.urlPrefix ++ s.PATH ++ "$"
  registerLoop pattern s.clsName
    [("GET", s.on_GET), ("PUT", s.on_PUT), ("POST", s.on_POST)]

/-- The guard `if retry_timings and retry_timings.retry_last_ts` as a
boolean on the store's answer. -/
def retryNonzero : Option RetryTimings → Bool
  | some rt => decide (rt.retry_last_ts ≠ 0)
  | none => false

/-- A well-formed header with fixed origin and key whose `sig`
parameter value is the symbolic suffix `v`. -/
def headerWithSig (v : Str) : Str :=
  "X-Matrix origin=example.org,key=k,sig=".data ++ v

/-- A well-formed header with fixed origin, key and signature whose
`destination` parameter value is the symbolic suffix `v`. -/
def headerWithDest (v : Str) : Str :=
  "X-Matrix origin=example.org,key=k,sig=s,destination=".data ++ v

/-! ### Helper lemmas -/

theorem processHeaders_skip (sn : Str) (hs : List (List Nat)) (o : Option Str)
    (sm : List (Str × List (Str × Str)))
    (h : ∀ a ∈ hs, xMatrixBytes.isPrefixOf a = false) :
    processHeaders sn hs o sm = .ok (o, sm) := by
  induction hs with
  | nil => rfl
  | cons a rest ih =>
    have ha := h a (by simp)
    simp only [processHeaders, ha]
    exact ih (fun x hx => h x (by simp [hx]))

theorem processHeaders_append (sn : Str) (l₁ l₂ : List (List Nat)) (o : Option Str)
    (sm : List (Str × List (Str × Str))) :
    processHeaders sn (l₁ ++ l₂) o sm =
      match processHeaders sn l₁ o sm with
      | .ok (o', sm') => processHeaders sn l₂ o' sm'
      | .error e => .error e := by
  induction l₁ generalizing o sm with
  | nil => rfl
  | cons a rest ih =>
    simp only [List.cons_append, processHeaders]
    by_cases hp : xMatrixBytes.isPrefixOf a
    · simp only [hp, if_true]
      cases hpa : parse_auth_header a with
      | error e => rfl
      | ok r =>
        obtain ⟨oo, k, s, dst⟩ := r
        cases dst with
        | none => exact ih _ _
        | some d =>
          by_cases hd : d ≠ sn
          · simp only [if_pos hd]
          · simp only [if_neg hd]
            exact ih _ _
    · simp only [hp, if_false]
      exact ih _ _

/-! ### C10 -/

/-- C10: registering a servlet with a cancellable `on_GET`, `on_PUT` or
`on_POST` handler raises immediately at registration time; a servlet
with no cancellable handlers gets each implemented method bound under
the anchored pattern `"^" + PREFIX + PATH + "$"` (walked in GET, PUT,
POST order). -/
theorem register_cancellable_fails_fast (s : ServletClass) :
    ((s.on_GET.any MethodHandler.cancellable ||
      s.on_PUT.any MethodHandler.cancellable ||
      s.on_POST.any MethodHandler.cancellable) = true →
      ∃ msg, registerServlet s = .error msg) ∧
    ((s.on_GET.any MethodHandler.cancellable ||
      s.on_PUT.any MethodHandler.cancellable ||
      s.on_POST.any MethodHandler.cancellable) = false →
      registerServlet s = .ok
        ((if s.on_GET.isSome then [("GET", "^" ++ s.urlPrefix ++ s.PATH ++ "$", s.clsName)] else []) ++
         (if s.on_PUT.isSome then [("PUT", "^" ++ s.urlPrefix ++ s.PATH ++ "$", s.clsName)] else []) ++
         (if s.on_POST.isSome then [("POST", "^" ++ s.urlPrefix ++ s.PATH ++ "$", s.clsName)] else []))) := by
  obtain ⟨P, pre, nm, g, u, po⟩ := s
  constructor <;> intro h <;>
    rcases g with _ | ⟨(_|_)⟩ <;> rcases u with _ | ⟨(_|_)⟩ <;> rcases po with _ | ⟨(_|_)⟩ <;>
    simp_all [registerServlet, registerLoop, Except.map, Option.any]

/-- Witness for C10: a concrete cancellable servlet fails registration,
a concrete plain servlet is bound under the anchored pattern. -/
theorem register_cancellable_fails_fast_w :
    (∃ msg, registerServlet ⟨"/path", "/pre", "S", some ⟨false⟩, some ⟨true⟩, none⟩ = .error msg) ∧
    registerServlet ⟨"/path", "/pre", "S", some ⟨false⟩, none, some ⟨false⟩⟩ =
      .ok [("GET", "^/pre/path$", "S"), ("POST", "^/pre/path$", "S")] := by
  refine ⟨(register_cancellable_fails_fast _).1 (by decide), ?_⟩
  have h := (register_cancellable_fails_fast ⟨"/path", "/pre", "S", some ⟨false⟩, none, some ⟨false⟩⟩).2 (by decide)
  simpa using h

/-! ### C6 -/

/-- C6: `_parse_auth_header` never fails with anything other than the
single malformed-header `AuthenticationError` (HTTP 400) — the
`except Exception` clause converts every failure (undecodable bytes,
bad tokenisation, bad quoting, invalid origin) into it — and in
particular a header whose parameter dict is missing `origin`, `key` or
`sig` fails with exactly that error. -/
theorem parse_auth_header_malformed_only :
    (∀ b e, parse_auth_header b = .error e → e = malformedHeaderError) ∧
    (∀ b s pairs, utf8Decode b = some s → paramPairs s = some pairs →
      (lookupLast ("origin".data) (pairs.map (fun p => (lowerKey p.1, p.2))) = none ∨
       lookupLast ("key".data) (pairs.map (fun p => (lowerKey p.1, p.2))) = none ∨
       lookupLast ("sig".data) (pairs.map (fun p => (lowerKey p.1, p.2))) = none) →
      parse_auth_header b = .error malformedHeaderError) := by
  constructor
  · intro b e h
    unfold parse_auth_header at h
    cases hm : (utf8Decode b).bind parseXMatrixParams with
    | some r => rw [hm] at h; exact absurd h (by simp)
    | none => rw [hm] at h; exact (Except.error.inj h).symm
  · intro b s pairs hdec hpp hmiss
    have hps : parseXMatrixParams s = none := by
      unfold parseXMatrixParams
      rw [hpp]
      rcases hmiss with h1 | hmiss
      · simp [h1]
      · cases ho : lookupLast ("origin".data) (pairs.map (fun p => (lowerKey p.1, p.2))) with
        | none => simp [ho]
        | some ov =>
          rcases hmiss with hk | hs
          · cases hv : validServerName (strip_quotes ov) <;> simp [ho, hk, hv]
          · cases hv : validServerName (strip_quotes ov) with
            | false => simp [ho, hv]
            | true =>
              cases hk : lookupLast ("key".data) (pairs.map (fun p => (lowerKey p.1, p.2))) <;>
                simp [ho, hk, hv, hs]
    unfold parse_auth_header
    rw [hdec]
    simp [hps]

/-- Witness for C6: a header missing `origin` fails with the
malformed-header error. -/
theorem parse_auth_header_malformed_only_w :
    parse_auth_header (asciiBytes "X-Matrix key=abc,sig=def") = .error malformedHeaderError :=
  parse_auth_header_malformed_only.2 _ ("X-Matrix key=abc,sig=def".data)
    [("key".data, "abc".data), ("sig".data, "def".data)]
    (by decide) (by decide) (Or.inl (by decide))

/-! ### C5 -/

/-- C5: when an authenticated origin is admitted by the rate limiter on
a `RATELIMIT` servlet and the client is found disconnected at the check
immediately after admission, the wrapped pipeline returns `None` (the
already-handled sentinel) and the method handler is never invoked. -/
theorem disconnected_after_admission_skips_handler
    (fl : ServletFlags) (cfg : AuthConfig)
    (keyring : Str → JsonRequest → Bool) (store : Str → Option RetryTimings)
    (wh : Str → Bool) (spanCtx : Option Unit)
    (req : Request) (content : Option String)
    (handlerRes : Except String (Option (Nat × Nat))) (o : Str)
    (hok : (authenticate_request cfg keyring store req content).result = .ok o)
    (hrl : fl.RATELIMIT = true)
    (hdisc : req.disconnected = true) :
    (new_func fl cfg keyring store wh spanCtx req content handlerRes).1 = .ok none ∧
    Ev.callHandler ∉ (new_func fl cfg keyring store wh spanCtx req content handlerRes).2 := by
  unfold new_func
  simp only [hok]
  simp [newFuncSpans, hrl, hdisc]

/-- Witness for C5: a concrete disconnected request on a rate-limited
servlet with a valid signature returns the sentinel and never calls
the handler. -/
theorem disconnected_after_admission_skips_handler_w :
    (new_func ⟨true, true⟩ ⟨"my.server".data, none⟩ (fun _ _ => true) (fun _ => none)
      (fun _ => true) (some ())
      ⟨"GET", "/x", [asciiBytes "X-Matrix origin=example.org,key=k,sig=s"], true⟩ none
      (.ok (some (200, 0)))).1 = .ok none ∧
    Ev.callHandler ∉ (new_func ⟨true, true⟩ ⟨"my.server".data, none⟩ (fun _ _ => true) (fun _ => none)
      (fun _ => true) (some ())
      ⟨"GET", "/x", [asciiBytes "X-Matrix origin=example.org,key=k,sig=s"], true⟩ none
      (.ok (some (200, 0)))).2 :=
  disconnected_after_admission_skips_handler _ _ _ _ _ _ _ _ _ ("example.org".data)
    (by decide) rfl rfl

/-! ### C1 -/

/-- C1 (amended): when processing of the `Authorization` headers runs
to completion yielding an origin (no malformed header and no
destination mismatch raised first), a configured whitelist not
containing that origin makes `authenticate_request` fail with
`FederationDeniedError`, and the Keyring is never invoked.  The claim
as stated, without the completion proviso, is refuted by
`whitelist_denial_preempted_cex`. -/
theorem whitelist_denies_before_keyring
    (cfg : AuthConfig) (keyring : Str → JsonRequest → Bool)
    (store : Str → Option RetryTimings) (req : Request) (content : Option String)
    (o : Str) (sigs : List (Str × List (Str × Str))) (wl : List Str)
    (hne : req.authHeaders.isEmpty = false)
    (hp : processHeaders cfg.server_name req.authHeaders none [] = .ok (some o, sigs))
    (hwl : cfg.federation_domain_whitelist = some wl)
    (ho : wl.contains o = false) :
    (authenticate_request cfg keyring store req content).result = .error (.federationDenied (some o)) ∧
    (authenticate_request cfg keyring store req content).keyringCalled = false := by
  have ho' : o ∉ wl := by simpa using ho
  unfold authenticate_request
  rw [hne, hp, hwl]
  simp [originInWhitelist, ho']

/-- Witness for C1: a parseable single-header request whose origin is
not in the configured whitelist is denied without a Keyring call. -/
theorem whitelist_denies_before_keyring_w :
    (authenticate_request ⟨"my.server".data, some ["other.org".data]⟩ (fun _ _ => true)
      (fun _ => none) ⟨"GET", "/x", [asciiBytes "X-Matrix origin=example.org,key=k,sig=s"], false⟩
      none).result = .error (.federationDenied (some ("example.org".data))) ∧
    (authenticate_request ⟨"my.server".data, some ["other.org".data]⟩ (fun _ _ => true)
      (fun _ => none) ⟨"GET", "/x", [asciiBytes "X-Matrix origin=example.org,key=k,sig=s"], false⟩
      none).keyringCalled = false :=
  whitelist_denies_before_keyring _ _ _ _ _ ("example.org".data)
    [("example.org".data, [("k".data, "s".data)])] _
    rfl (by decide) rfl (by decide)

/-- Counterexample for C1 as stated: this request's X-Matrix header
parses and yields origin `example.org`, a whitelist is configured that
does not contain it, yet `authenticate_request` fails with the
destination-mismatch `AuthenticationError`, not `FederationDeniedError`
(the in-loop destination check precedes the whitelist check). -/
theorem whitelist_denial_preempted_cex :
    (authenticate_request ⟨"my.server".data, some ["other.org".data]⟩ (fun _ _ => true)
      (fun _ => none)
      ⟨"GET", "/x", [asciiBytes "X-Matrix origin=example.org,key=k,sig=s,destination=wrong.server"], false⟩
      none).result = .error (.authentication 401 "Destination mismatch in auth header") ∧
    (authenticate_request ⟨"my.server".data, some ["other.org".data]⟩ (fun _ _ => true)
      (fun _ => none)
      ⟨"GET", "/x", [asciiBytes "X-Matrix origin=example.org,key=k,sig=s,destination=wrong.server"], false⟩
      none).result ≠ .error (.federationDenied (some ("example.org".data))) := by
  constructor
  · decide
  · decide

/-! ### C8 -/

/-- C8 (amended): on a request whose `Authorization` headers are
present but contain no X-Matrix entry, `authenticate_request` raises
`NoAuthenticationError` only when no federation domain whitelist is
configured; when a whitelist is configured, the check
`origin not in whitelist` fires first with `origin = None` (never a
member), so the request fails with `FederationDeniedError(None)`
instead.  The claim's "including when a federation domain whitelist is
configured" is refuted by `no_xmatrix_with_whitelist_cex`. -/
theorem no_xmatrix_entries_unauthenticated
    (cfg : AuthConfig) (keyring : Str → JsonRequest → Bool)
    (store : Str → Option RetryTimings) (req : Request) (content : Option String)
    (hne : req.authHeaders.isEmpty = false)
    (hnx : ∀ a ∈ req.authHeaders, xMatrixBytes.isPrefixOf a = false) :
    (cfg.federation_domain_whitelist = none →
      (authenticate_request cfg keyring store req content).result =
        .error (.noAuthentication 401 "Missing Authorization headers")) ∧
    (∀ wl, cfg.federation_domain_whitelist = some wl →
      (authenticate_request cfg keyring store req content).result =
        .error (.federationDenied none)) := by
  have hp := processHeaders_skip cfg.server_name req.authHeaders none [] hnx
  constructor
  · intro hwl
    unfold authenticate_request
    rw [hne, hp, hwl]
    simp [authenticate_request.authAfterWhitelist]
  · intro wl hwl
    unfold authenticate_request
    rw [hne, hp, hwl]
    simp [originInWhitelist]

/-- Witness for C8: a request carrying only a `Bearer` header is
`Unauthenticated` without a whitelist and `FederationDeniedError(None)`
with one. -/
theorem no_xmatrix_entries_unauthenticated_w :
    (authenticate_request ⟨"my.server".data, none⟩ (fun _ _ => true) (fun _ => none)
      ⟨"GET", "/x", [asciiBytes "Bearer foo"], false⟩ none).result =
      .error (.noAuthentication 401 "Missing Authorization headers") ∧
    (authenticate_request ⟨"my.server".data, some ["example.org".data]⟩ (fun _ _ => true)
      (fun _ => none) ⟨"GET", "/x", [asciiBytes "Bearer foo"], false⟩ none).result =
      .error (.federationDenied none) := by
  constructor
  · exact (no_xmatrix_entries_unauthenticated _ _ _ _ _ (by decide) (by decide)).1 rfl
  · exact (no_xmatrix_entries_unauthenticated _ _ _ _ _ (by decide) (by decide)).2 _ rfl

/-- Counterexample for C8 as stated: with a whitelist configured, a
request whose only `Authorization` header is a non-X-Matrix entry is
rejected with `FederationDeniedError(None)`, not with
`NoAuthenticationError`. -/
theorem no_xmatrix_with_whitelist_cex :
    (authenticate_request ⟨"my.server".data, some ["example.org".data]⟩ (fun _ _ => true)
      (fun _ => none) ⟨"GET", "/x", [asciiBytes "Bearer foo"], false⟩ none).result =
      .error (.federationDenied none) ∧
    (authenticate_request ⟨"my.server".data, some ["example.org".data]⟩ (fun _ _ => true)
      (fun _ => none) ⟨"GET", "/x", [asciiBytes "Bearer foo"], false⟩ none).result ≠
      .error (.noAuthentication 401 "Missing Authorization headers") := by
  constructor
  · decide
  · decide

/-! ### C2 -/

/-- C2 (amended): if the header list splits as `pre ++ h :: post`
where every entry in `pre` processes without raising and `h` is an
X-Matrix entry that parses with a destination different from the local
server name, `authenticate_request` fails with the destination-mismatch
`AuthenticationError` (HTTP 401) and the Keyring is never invoked.  The
claim as stated, without the proviso on `pre`, is refuted by
`destination_mismatch_preempted_cex` (a malformed entry earlier in the
list fails first, with the malformed-header error instead). -/
theorem destination_mismatch_before_keyring
    (cfg : AuthConfig) (keyring : Str → JsonRequest → Bool)
    (store : Str → Option RetryTimings) (req : Request) (content : Option String)
    (pre post : List (List Nat)) (h : List Nat)
    (o k s d : Str) (origin₀ : Option Str) (sigs₀ : List (Str × List (Str × Str)))
    (hsplit : req.authHeaders = pre ++ h :: post)
    (hpre : processHeaders cfg.server_name pre none [] = .ok (origin₀, sigs₀))
    (hx : xMatrixBytes.isPrefixOf h = true)
    (hparse : parse_auth_header h = .ok (o, k, s, some d))
    (hd : d ≠ cfg.server_name) :
    (authenticate_request cfg keyring store req content).result =
      .error (.authentication 401 "Destination mismatch in auth header") ∧
    (authenticate_request cfg keyring store req content).keyringCalled = false := by
  have hne : req.authHeaders.isEmpty = false := by
    rw [hsplit]
    cases pre <;> simp
  have hloop : processHeaders cfg.server_name req.authHeaders none [] =
      .error (.authentication 401 "Destination mismatch in auth header") := by
    rw [hsplit, processHeaders_append, hpre]
    simp only [processHeaders, hx, if_true, hparse]
    rw [if_pos hd]
  unfold authenticate_request
  rw [hne, hloop]
  simp

/-- Witness for C2: a single mismatching header is rejected with the
destination-mismatch error and no Keyring call. -/
theorem destination_mismatch_before_keyring_w :
    (authenticate_request ⟨"my.server".data, none⟩ (fun _ _ => true) (fun _ => none)
      ⟨"GET", "/x", [asciiBytes "X-Matrix origin=example.org,key=k,sig=s,destination=wrong.server"], false⟩
      none).result = .error (.authentication 401 "Destination mismatch in auth header") ∧
    (authenticate_request ⟨"my.server".data, none⟩ (fun _ _ => true) (fun _ => none)
      ⟨"GET", "/x", [asciiBytes "X-Matrix origin=example.org,key=k,sig=s,destination=wrong.server"], false⟩
      none).keyringCalled = false :=
  destination_mismatch_before_keyring _ _ _ _ _ []
    [] (asciiBytes "X-Matrix origin=example.org,key=k,sig=s,destination=wrong.server")
    ("example.org".data) ("k".data) ("s".data) ("wrong.server".data) none []
    rfl rfl (by decide) (by decide) (by decide)

/-- Counterexample for C2 as stated: a request whose second header is
an X-Matrix entry with a mismatched destination, but whose first
header is a malformed X-Matrix entry, fails with the malformed-header
error (HTTP 400), not with the destination-mismatch error. -/
theorem destination_mismatch_preempted_cex :
    (authenticate_request ⟨"my.server".data, none⟩ (fun _ _ => true) (fun _ => none)
      ⟨"GET", "/x", [asciiBytes "X-Matrix junk",
        asciiBytes "X-Matrix origin=example.org,key=k,sig=s,destination=wrong.server"], false⟩
      none).result = .error malformedHeaderError ∧
    (authenticate_request ⟨"my.server".data, none⟩ (fun _ _ => true) (fun _ => none)
      ⟨"GET", "/x", [asciiBytes "X-Matrix junk",
        asciiBytes "X-Matrix origin=example.org,key=k,sig=s,destination=wrong.server"], false⟩
      none).result ≠ .error (.authentication 401 "Destination mismatch in auth header") := by
  constructor
  · decide
  · decide

/-! ### C3 -/

/-- On the success path, the background reset is scheduled exactly when
the stored retry timings for the authenticated origin exist and carry a
nonzero `retry_last_ts`. -/
theorem authAfterWhitelist_ok_resetScheduled (cfg : AuthConfig)
    (keyring : Str → JsonRequest → Bool) (store : Str → Option RetryTimings)
    (req : Request) (content : Option String) (origin : Option Str)
    (sigs : List (Str × List (Str × Str))) (o : Str)
    (h : (authenticate_request.authAfterWhitelist cfg keyring store req content origin sigs).result = .ok o) :
    (authenticate_request.authAfterWhitelist cfg keyring store req content origin sigs).resetScheduled =
      retryNonzero (store o) := by
  cases origin with
  | none => simp [authenticate_request.authAfterWhitelist] at h
  | some o' =>
    unfold authenticate_request.authAfterWhitelist at h ⊢
    by_cases hs : sigs.isEmpty = true
    · simp [hs] at h
    · by_cases hk : keyring o' ⟨req.method, req.uri, cfg.server_name, some o', sigs, content⟩ = true
      · simp [hs, hk] at h ⊢
        subst h
        cases hst : store o' <;> simp [retryNonzero, hst]
      · simp [hs, hk] at h

theorem auth_ok_resetScheduled (cfg : AuthConfig) (keyring : Str → JsonRequest → Bool)
    (store : Str → Option RetryTimings) (req : Request) (content : Option String) (o : Str)
    (hok : (authenticate_request cfg keyring store req content).result = .ok o) :
    (authenticate_request cfg keyring store req content).resetScheduled = retryNonzero (store o) := by
  unfold authenticate_request at hok ⊢
  repeat' split at hok
  all_goals try simp_all
  all_goals exact authAfterWhitelist_ok_resetScheduled _ _ _ _ _ _ _ _ hok

/-- C3: on successful verification of an origin whose stored retry
timings have nonzero `retry_last_ts`, `authenticate_request` schedules
the `reset_retry_timings` background task and returns the origin; the
request outcome is the same no matter whether or where the background
task fails (it is detached by `run_in_background`); a clean run of the
task writes the zero retry state `(None, 0, 0)` and emits the
origin-up notification (plus the replication send on a worker); and a
run with a failure injected at any step either never reaches that step
or logs and swallows the exception, never propagating it. -/
theorem reset_retry_background (cfg : AuthConfig) (keyring : Str → JsonRequest → Bool)
    (store : Str → Option RetryTimings) (req : Request) (content : Option String) (o : Str)
    (hok : (authenticate_request cfg keyring store req content).result = .ok o)
    (hrt : retryNonzero (store o) = true) :
    (authenticate_request cfg keyring store req content).resetScheduled = true ∧
    (∀ isWorker failAt,
      (requestWithBackground cfg keyring store req content isWorker failAt).1 = .ok o) ∧
    (∀ isWorker, reset_retry_timings isWorker none o =
      ⟨[(o, none, 0, 0)], [o], if isWorker then [o] else [], false⟩) ∧
    (∀ isWorker failAt, (reset_retry_timings isWorker failAt o).loggedError = true ∨
      reset_retry_timings isWorker failAt o = reset_retry_timings isWorker none o) := by
  refine ⟨?_, ?_, ?_, ?_⟩
  · rw [auth_ok_resetScheduled cfg keyring store req content o hok, hrt]
  · intro isWorker failAt
    simp [requestWithBackground, hok]
  · intro isWorker
    cases isWorker <;> rfl
  · intro isWorker failAt
    cases isWorker <;> rcases failAt with _ | (_ | _ | _) <;>
      simp [reset_retry_timings, resetAttempt]

/-- Witness for C3: a concrete request from a previously-down origin
(retry timings `(5, 0)`) schedules the reset, keeps its outcome under
failure injection, and the clean task writes the zero state and
notifies. -/
theorem reset_retry_background_w :
    (authenticate_request ⟨"my.server".data, none⟩ (fun _ _ => true) (fun _ => some ⟨5, 30⟩)
      ⟨"GET", "/x", [asciiBytes "X-Matrix origin=example.org,key=k,sig=s"], false⟩
      none).resetScheduled = true ∧
    (∀ isWorker failAt,
      (requestWithBackground ⟨"my.server".data, none⟩ (fun _ _ => true) (fun _ => some ⟨5, 30⟩)
        ⟨"GET", "/x", [asciiBytes "X-Matrix origin=example.org,key=k,sig=s"], false⟩
        none isWorker failAt).1 = .ok ("example.org".data)) ∧
    (∀ isWorker, reset_retry_timings isWorker none ("example.org".data) =
      ⟨[("example.org".data, none, 0, 0)], ["example.org".data],
        if isWorker then ["example.org".data] else [], false⟩) ∧
    (∀ isWorker failAt,
      (reset_retry_timings isWorker failAt ("example.org".data)).loggedError = true ∨
      reset_retry_timings isWorker failAt ("example.org".data) =
        reset_retry_timings isWorker none ("example.org".data)) :=
  reset_retry_background _ _ _ _ _ ("example.org".data) (by decide) (by decide)

/-! ### C4 -/

/-- The span section always produces the two-span bracket: a
remote-parent span (real exactly when the origin is whitelisted for
tracing and a remote context was extracted, a non-recording placeholder
otherwise), then the local-processing span, and the two exits in
reverse order after the body — whatever the body does, including
raising. -/
theorem newFuncSpans_shape (fl : ServletFlags) (wh : Str → Bool) (spanCtx : Option Unit)
    (req : Request) (handlerRes : Except String (Option (Nat × Nat))) (origin : Option Str) :
    ∃ mid,
      (newFuncSpans fl wh spanCtx req handlerRes origin).2 =
        [Ev.enterRemote ((origin.elim false wh) && spanCtx.isSome), Ev.enterLocal] ++
          mid ++ [Ev.exitLocal, Ev.exitRemote] ∧
      ∀ e ∈ mid, e = Ev.enterRL ∨ e = Ev.exitRL ∨ e = Ev.callHandler := by
  unfold newFuncSpans
  cases origin with
  | none => exact ⟨[Ev.callHandler], by simp, by decide⟩
  | some o =>
    have hreal : (if wh o then spanCtx else none).isSome =
        ((some o).elim false wh && spanCtx.isSome) := by
      cases hw : wh o <;> simp [hw]
    cases hrl : fl.RATELIMIT with
    | false =>
      exact ⟨[Ev.callHandler], by simp [hrl, hreal], by decide⟩
    | true =>
      cases hdisc : req.disconnected with
      | true => exact ⟨[Ev.enterRL, Ev.exitRL], by simp [hrl, hdisc, hreal], by decide⟩
      | false =>
        exact ⟨[Ev.enterRL, Ev.callHandler, Ev.exitRL], by simp [hrl, hdisc, hreal], by decide⟩

/-- C4: whenever the pipeline proceeds past authentication, its event
trace brackets the body with exactly the two handler-execution spans —
`enterRemote r` then `enterLocal` before it, `exitLocal` then
`exitRemote` after it, in reverse order — on every exit path (the
bracket does not depend on the handler's outcome, raising included),
with `r` true (a real remote-parent span) exactly when the
authenticated origin is whitelisted for trace propagation and a remote
span context was extracted, and false (the non-recording placeholder)
otherwise; the part between the spans contains only rate-limiter and
handler events. -/
theorem two_spans_paired_every_exit (fl : ServletFlags) (cfg : AuthConfig)
    (keyring : Str → JsonRequest → Bool) (store : Str → Option RetryTimings)
    (wh : Str → Bool) (spanCtx : Option Unit)
    (req : Request) (content : Option String)
    (handlerRes : Except String (Option (Nat × Nat)))
    (h : authContinues fl cfg keyring store req content = true) :
    ∃ mid,
      (new_func fl cfg keyring store wh spanCtx req content handlerRes).2 =
        [Ev.authSpanEnter, Ev.authSpanExit,
          Ev.enterRemote (((originAfterAuth cfg keyring store req content).elim false wh) && spanCtx.isSome),
          Ev.enterLocal] ++ mid ++ [Ev.exitLocal, Ev.exitRemote] ∧
      ∀ e ∈ mid, e = Ev.enterRL ∨ e = Ev.exitRL ∨ e = Ev.callHandler := by
  unfold authContinues at h
  unfold new_func originAfterAuth
  cases ar : (authenticate_request cfg keyring store req content).result with
  | ok o =>
    obtain ⟨mid, hm, hmem⟩ := newFuncSpans_shape fl wh spanCtx req handlerRes (some o)
    exact ⟨mid, by simp [ar, hm], hmem⟩
  | error e =>
    rw [ar] at h
    cases e with
    | noAuthentication st m =>
      have hra : fl.REQUIRE_AUTH = false := by simpa using h
      obtain ⟨mid, hm, hmem⟩ := newFuncSpans_shape fl wh spanCtx req handlerRes none
      exact ⟨mid, by simp [ar, hra, hm], hmem⟩
    | authentication st m => simp at h
    | federationDenied o => simp at h
    | keyringRejected => simp at h

/-- Witness for C4: a concrete authenticated, whitelisted, traced,
rate-limited request whose handler raises still produces the bracketed
two-span trace. -/
theorem two_spans_paired_every_exit_w :
    ∃ mid,
      (new_func ⟨true, true⟩ ⟨"my.server".data, none⟩ (fun _ _ => true) (fun _ => none)
        (fun _ => true) (some ())
        ⟨"GET", "/x", [asciiBytes "X-Matrix origin=example.org,key=k,sig=s"], false⟩ none
        (.error "handler blew up")).2 =
        [Ev.authSpanEnter, Ev.authSpanExit,
          Ev.enterRemote (((originAfterAuth ⟨"my.server".data, none⟩ (fun _ _ => true) (fun _ => none)
            ⟨"GET", "/x", [asciiBytes "X-Matrix origin=example.org,key=k,sig=s"], false⟩ none).elim
              false (fun _ => true)) && (some ()).isSome),
          Ev.enterLocal] ++ mid ++ [Ev.exitLocal, Ev.exitRemote] ∧
      ∀ e ∈ mid, e = Ev.enterRL ∨ e = Ev.exitRL ∨ e = Ev.callHandler :=
  two_spans_paired_every_exit _ _ _ _ _ _ _ _ _ (by decide)

/-! ### String-splitting lemmas for the header parser -/

theorem splitSp_nospace (l : Str) (h : ' ' ∉ l) : splitSp l = [l] := by
  induction l with
  | nil => rfl
  | cons c rest ih =>
    have hc : ¬ c = ' ' := fun e => h (by simp [e])
    simp only [splitSp, if_neg hc, ih (fun m => h (List.mem_cons_of_mem _ m))]

theorem splitSp_sep (a b : Str) (ha : ' ' ∉ a) (hb : ' ' ∉ b) :
    splitSp (a ++ ' ' :: b) = [a, b] := by
  induction a with
  | nil =>
    have hbh : ¬ b.head? = some ' ' := by
      cases b with
      | nil => simp
      | cons c' b' =>
        simp only [List.head?]
        intro e
        injection e with e
        exact hb (by simp [e])
    show splitSp (' ' :: b) = [[], b]
    simp [splitSp, hbh, splitSp_nospace b hb]
  | cons c a' ih =>
    have hc : ¬ c = ' ' := fun e => ha (by simp [e])
    have h1 : (c :: a') ++ ' ' :: b = c :: (a' ++ ' ' :: b) := rfl
    rw [h1]
    simp [splitSp, hc, ih (fun m => ha (List.mem_cons_of_mem _ m))]

theorem splitOnChar_nosep (sep : Char) (l : Str) (h : sep ∉ l) :
    splitOnChar sep l = [l] := by
  induction l with
  | nil => rfl
  | cons c rest ih =>
    have hc : ¬ c = sep := fun e => h (by simp [e])
    simp only [splitOnChar, if_neg hc, ih (fun m => h (List.mem_cons_of_mem _ m))]

theorem splitOnChar_sep_append (sep : Char) (x y : Str) (hx : sep ∉ x) :
    splitOnChar sep (x ++ sep :: y) = x :: splitOnChar sep y := by
  induction x with
  | nil =>
    show splitOnChar sep (sep :: y) = [] :: splitOnChar sep y
    simp [splitOnChar]
  | cons c x' ih =>
    have hc : ¬ c = sep := fun e => hx (by simp [e])
    have h1 : (c :: x') ++ sep :: y = c :: (x' ++ sep :: y) := rfl
    rw [h1]
    simp [splitOnChar, hc, ih (fun m => hx (List.mem_cons_of_mem _ m))]

theorem splitEq1_append (k rest : Str) (hk : '=' ∉ k) :
    splitEq1 (k ++ '=' :: rest) = some (k, rest) := by
  induction k with
  | nil =>
    show splitEq1 ('=' :: rest) = some ([], rest)
    simp [splitEq1]
  | cons c k' ih =>
    have hc : ¬ c = '=' := fun e => hk (by simp [e])
    have h1 : (c :: k') ++ '=' :: rest = c :: (k' ++ '=' :: rest) := rfl
    rw [h1]
    simp [splitEq1, hc, ih (fun m => hk (List.mem_cons_of_mem _ m))]

theorem mem_escapeValue (v : Str) (c : Char) (h : c ∈ escapeValue v) :
    c = '\\' ∨ c ∈ v := by
  induction v with
  | nil => simp [escapeValue] at h
  | cons a rest ih =>
    simp only [escapeValue] at h
    by_cases ha : a = '\\' ∨ a = '"'
    · rw [if_pos ha] at h
      rcases List.mem_cons.mp h with h1 | h2
      · exact Or.inl h1
      rcases List.mem_cons.mp h2 with h3 | h4
      · exact Or.inr (by simp [h3])
      rcases ih h4 with h5 | h6
      · exact Or.inl h5
      · exact Or.inr (List.mem_cons_of_mem _ h6)
    · rw [if_neg ha] at h
      rcases List.mem_cons.mp h with h1 | h2
      · exact Or.inr (by simp [h1])
      rcases ih h2 with h3 | h4
      · exact Or.inl h3
      · exact Or.inr (List.mem_cons_of_mem _ h4)

theorem unescape_cons_ne (a : Char) (l : Str) (ha : ¬ a = '\\') :
    unescape (a :: l) = a :: unescape l := by
  rw [unescape.eq_def]
  simp [ha]

theorem unescape_escapeValue (v : Str) : unescape (escapeValue v) = v := by
  induction v with
  | nil => rfl
  | cons a rest ih =>
    by_cases ha : a = '\\' ∨ a = '"'
    · have han : ¬ a = '\n' := by rcases ha with h | h <;> simp [h]
      simp [escapeValue, ha, unescape, han, ih]
    · have ha' : ¬ a = '\\' := fun e => ha (Or.inl e)
      have ha2 : ¬ a = '"' := fun e => ha (Or.inr e)
      simp [escapeValue, ha', ha2, unescape_cons_ne _ _ ha', ih]

theorem strip_quotes_quoteValue (v : Str) : strip_quotes (quoteValue v) = v := by
  simp only [quoteValue, strip_quotes, if_pos rfl]
  rw [show (escapeValue v ++ ['"']).dropLast = escapeValue v from List.dropLast_concat]
  exact unescape_escapeValue v

theorem strip_quotes_unquoted (v : Str) (h : v.head? ≠ some '"') :
    strip_quotes v = v := by
  cases v with
  | nil => rfl
  | cons c rest =>
    have hc : ¬ c = '"' := by
      intro e
      exact h (by simp [e])
    simp only [strip_quotes, if_neg hc]

/-! ### C7 and C9: symbolic parses of concrete header shapes -/

theorem paramPairs_headerWithSig (v : Str) (hs : ' ' ∉ v) (hc : ',' ∉ v) :
    paramPairs (headerWithSig v) =
      some [("origin".data, "example.org".data), ("key".data, "k".data), ("sig".data, v)] := by
  have hBs : ' ' ∉ (("origin=example.org,key=k,sig=".data : Str) ++ v) := by
    intro hm
    rcases List.mem_append.mp hm with h | h
    · exact absurd h (by decide)
    · exact hs h
  have hmain : headerWithSig v =
      "X-Matrix".data ++ ' ' :: ("origin=example.org,key=k,sig=".data ++ v) := by
    unfold headerWithSig
    rw [show ("X-Matrix origin=example.org,key=k,sig=".data : Str) =
      "X-Matrix".data ++ ' ' :: "origin=example.org,key=k,sig=".data by decide]
    simp [List.append_assoc]
  unfold paramPairs
  rw [hmain, splitSp_sep _ _ (by decide) hBs]
  show mapOpt splitEq1 (splitOnChar ',' ("origin=example.org,key=k,sig=".data ++ v)) = _
  rw [show (("origin=example.org,key=k,sig=".data : Str) ++ v) =
      "origin=example.org".data ++ ',' :: ("key=k".data ++ ',' :: ("sig=".data ++ v)) by
    rw [show ("origin=example.org,key=k,sig=".data : Str) =
      "origin=example.org".data ++ ',' :: ("key=k".data ++ ',' :: "sig=".data) by decide]
    simp [List.append_assoc]]
  have hsv : ',' ∉ (("sig=".data : Str) ++ v) := by
    intro hm
    rcases List.mem_append.mp hm with h | h
    · exact absurd h (by decide)
    · exact hc h
  rw [splitOnChar_sep_append _ _ _ (by decide), splitOnChar_sep_append _ _ _ (by decide),
    splitOnChar_nosep _ _ hsv]
  have e1 : splitEq1 ("origin=example.org".data) = some ("origin".data, "example.org".data) := by
    decide
  have e2 : splitEq1 ("key=k".data) = some ("key".data, "k".data) := by decide
  have e3 : splitEq1 ('s' :: 'i' :: 'g' :: '=' :: v) = some ("sig".data, v) := by
    rw [show ('s' :: 'i' :: 'g' :: '=' :: v : Str) = "sig".data ++ '=' :: v from rfl]
    exact splitEq1_append _ _ (by decide)
  simp [mapOpt, e1, e2, e3]

theorem parseXMatrix_headerWithSig (v : Str) (hs : ' ' ∉ v) (hc : ',' ∉ v) :
    parseXMatrixParams (headerWithSig v) =
      some ("example.org".data, "k".data, strip_quotes v, none) := by
  unfold parseXMatrixParams
  rw [paramPairs_headerWithSig v hs hc]
  rfl

theorem paramPairs_headerWithDest (v : Str) (hs : ' ' ∉ v) (hc : ',' ∉ v) :
    paramPairs (headerWithDest v) =
      some [("origin".data, "example.org".data), ("key".data, "k".data),
        ("sig".data, "s".data), ("destination".data, v)] := by
  have hBs : ' ' ∉ (("origin=example.org,key=k,sig=s,destination=".data : Str) ++ v) := by
    intro hm
    rcases List.mem_append.mp hm with h | h
    · exact absurd h (by decide)
    · exact hs h
  have hmain : headerWithDest v =
      "X-Matrix".data ++ ' ' :: ("origin=example.org,key=k,sig=s,destination=".data ++ v) := by
    unfold headerWithDest
    rw [show ("X-Matrix origin=example.org,key=k,sig=s,destination=".data : Str) =
      "X-Matrix".data ++ ' ' :: "origin=example.org,key=k,sig=s,destination=".data by decide]
    simp [List.append_assoc]
  unfold paramPairs
  rw [hmain, splitSp_sep _ _ (by decide) hBs]
  show mapOpt splitEq1
      (splitOnChar ',' ("origin=example.org,key=k,sig=s,destination=".data ++ v)) = _
  rw [show (("origin=example.org,key=k,sig=s,destination=".data : Str) ++ v) =
      "origin=example.org".data ++ ',' :: ("key=k".data ++ ',' ::
        ("sig=s".data ++ ',' :: ("destination=".data ++ v))) by
    rw [show ("origin=example.org,key=k,sig=s,destination=".data : Str) =
      "origin=example.org".data ++ ',' :: ("key=k".data ++ ',' ::
        ("sig=s".data ++ ',' :: "destination=".data)) by decide]
    simp [List.append_assoc]]
  have hdv : ',' ∉ (("destination=".data : Str) ++ v) := by
    intro hm
    rcases List.mem_append.mp hm with h | h
    · exact absurd h (by decide)
    · exact hc h
  rw [splitOnChar_sep_append _ _ _ (by decide), splitOnChar_sep_append _ _ _ (by decide),
    splitOnChar_sep_append _ _ _ (by decide), splitOnChar_nosep _ _ hdv]
  have e1 : splitEq1 ("origin=example.org".data) = some ("origin".data, "example.org".data) := by
    decide
  have e2 : splitEq1 ("key=k".data) = some ("key".data, "k".data) := by decide
  have e3 : splitEq1 ("sig=s".data) = some ("sig".data, "s".data) := by decide
  have e4 : splitEq1 ('d' :: 'e' :: 's' :: 't' :: 'i' :: 'n' :: 'a' :: 't' :: 'i' :: 'o' :: 'n' :: '=' :: v) =
      some ("destination".data, v) := by
    rw [show ('d' :: 'e' :: 's' :: 't' :: 'i' :: 'n' :: 'a' :: 't' :: 'i' :: 'o' :: 'n' :: '=' :: v : Str) =
      "destination".data ++ '=' :: v from rfl]
    exact splitEq1_append _ _ (by decide)
  simp [mapOpt, e1, e2, e3, e4]

/-- C9 (amended): the parser returns the `destination` parameter after
quote-stripping without any `ServerName` validation — a header whose
destination value is an arbitrary comma- and space-free string parses
successfully, valid server name or not (only `origin` is passed to
`parse_and_validate_server_name` in the source).  The claim as stated
is refuted by `destination_validation_cex`. -/
theorem destination_returned_unvalidated (v : Str) (hs : ' ' ∉ v) (hc : ',' ∉ v) :
    parseXMatrixParams (headerWithDest v) =
      some ("example.org".data, "k".data, "s".data, some (strip_quotes v)) := by
  unfold parseXMatrixParams
  rw [paramPairs_headerWithDest v hs hc]
  rfl

/-- Witness for C9: a destination that fails `ServerName` validation
still parses successfully. -/
theorem destination_returned_unvalidated_w :
    parseXMatrixParams (headerWithDest ("!!bad!!".data)) =
      some ("example.org".data, "k".data, "s".data, some ("!!bad!!".data)) ∧
    validServerName ("!!bad!!".data) = false := by
  constructor
  · rw [destination_returned_unvalidated ("!!bad!!".data) (by decide) (by decide)]
    rfl
  · decide

/-- Counterexample for C9 as stated: `_parse_auth_header` accepts a
header whose declared destination is not a valid server name, instead
of failing as malformed. -/
theorem destination_validation_cex :
    parse_auth_header (asciiBytes "X-Matrix origin=example.org,key=k,sig=s,destination=!!bad!!") =
      .ok ("example.org".data, "k".data, "s".data, some ("!!bad!!".data)) ∧
    validServerName ("!!bad!!".data) = false := by
  constructor
  · decide
  · decide

/-- C7: for a well-formed header with a valid `ServerName` origin, a
double-quoted parameter value with backslash escaping parses and
unescapes to exactly the raw value — the same result as parsing the
unquoted equivalent (values free of spaces and commas, which the
tokeniser splits on before quote handling, and not themselves starting
with a quote). -/
theorem quoted_value_roundtrip (v : Str) (h1 : ' ' ∉ v) (h2 : ',' ∉ v)
    (h3 : v.head? ≠ some '"') :
    parseXMatrixParams (headerWithSig (quoteValue v)) =
      some ("example.org".data, "k".data, v, none) ∧
    parseXMatrixParams (headerWithSig v) =
      some ("example.org".data, "k".data, v, none) := by
  have hq1 : ' ' ∉ quoteValue v := by
    intro hm
    simp only [quoteValue] at hm
    rcases List.mem_cons.mp hm with h | h
    · exact absurd h (by decide)
    rcases List.mem_append.mp h with h | h
    · rcases mem_escapeValue v ' ' h with h | h
      · exact absurd h (by decide)
      · exact h1 h
    · exact absurd h (by decide)
  have hq2 : ',' ∉ quoteValue v := by
    intro hm
    simp only [quoteValue] at hm
    rcases List.mem_cons.mp hm with h | h
    · exact absurd h (by decide)
    rcases List.mem_append.mp h with h | h
    · rcases mem_escapeValue v ',' h with h | h
      · exact absurd h (by decide)
      · exact h2 h
    · exact absurd h (by decide)
  constructor
  · rw [parseXMatrix_headerWithSig _ hq1 hq2, strip_quotes_quoteValue]
  · rw [parseXMatrix_headerWithSig _ h1 h2, strip_quotes_unquoted _ h3]

/-- Witness for C7: the value `a\b"c` (backslash and quote inside)
parses identically quoted and unquoted. -/
theorem quoted_value_roundtrip_w :
    parseXMatrixParams (headerWithSig (quoteValue ("a\\b\"c".data))) =
      some ("example.org".data, "k".data, "a\\b\"c".data, none) ∧
    parseXMatrixParams (headerWithSig ("a\\b\"c".data)) =
      some ("example.org".data, "k".data, "a\\b\"c".data, none) :=
  quoted_value_roundtrip ("a\\b\"c".data) (by decide) (by decide) (by decide)
